import Mathlib

/-!
A shallow embedding of the hassil intent matcher (src/hassil/recognize.py) and
the expression parser dispatch (src/hassil/parse_expression.py).

Python strings are modelled as lists of characters (Python indexes and slices
strings by code point, as List Char does).  Python dicts with string keys are
modelled as association lists looked up front to back.  Python dynamic values
(the Any type used for entity values and intent context) are modelled by the
Value type below: the None singleton, integers, strings, and non-string
collections of scalars.  Generators are modelled as functions returning an
Except value: an ok list is the list of yielded items in order, an error is an
exception raised before any further item is produced.  Unbounded recursion
through expansion rules is modelled with a fuel parameter; running out of fuel
is the distinguished error noFuel, which no source-level path produces for the
concrete inputs used below.

Modules of the repository that are not under src (expression.py, parser.py,
intents.py, util.py) are modelled from the spec where a definition is needed;
each such definition carries a doc comment starting with: Modelled from the
spec.
-/

namespace Hassil

/-- Python strings as lists of code points. -/
abbrev Str := List Char

/-- Membership in the character class matched by the regex shorthand for
whitespace, restricted to the ASCII whitespace characters Python treats as
whitespace in str.strip, str.split and the regex class. -/
def pyIsSpaceChar (c : Char) : Bool :=
  c == ' ' || c == '\t' || c == '\n' || c == '\r' || c == '\x0b' || c == '\x0c'

/-- WHITESPACE.sub applied with an empty replacement: remove every whitespace
character (recognize.py line 23 defines WHITESPACE as one or more whitespace
characters; substituting runs by the empty string removes each character). -/
def removeWhitespace (s : Str) : Str := s.filter (fun c => !pyIsSpaceChar c)

/-- Python str.lstrip with no argument: drop leading whitespace. -/
def lstrip (s : Str) : Str := s.dropWhile pyIsSpaceChar

/-- Python str.isspace: true when the string is non-empty and every character
is whitespace. -/
def isspaceL (s : Str) : Bool := !s.isEmpty && s.all pyIsSpaceChar

/-- Python str.startswith on our string model. -/
def startswithL : Str → Str → Bool
  | [], _ => true
  | _ :: _, [] => false
  | p :: ps, c :: cs => p == c && startswithL ps cs

/-- Python chunk.text.endswith applied to a single space character. -/
def endswithSpace (s : Str) : Bool := s.getLast? == Option.some ' '

/-- The character class of the PUNCTUATION regex at recognize.py line 22. -/
def PUNCTUATION_CHARS : Str :=
  ['.', '。', ',', '，', '?', '¿', '？', '!', '！', ';', '；', ':', '：']

def isPunctChar (c : Char) : Bool := PUNCTUATION_CHARS.any (fun p => p == c)

/-- Helper for punctSubSpace: the flag records whether the previous character
belonged to a punctuation run already replaced by a space. -/
def punctSubSpaceAux : Bool → Str → Str
  | _, [] => []
  | inRun, c :: rest =>
    if isPunctChar c then
      if inRun then punctSubSpaceAux true rest
      else ' ' :: punctSubSpaceAux true rest
    else c :: punctSubSpaceAux false rest

/-- PUNCTUATION.sub applied with a single-space replacement (recognize.py line
392): each maximal run of one or more punctuation characters becomes one
space. -/
def punctSubSpace (s : Str) : Str := punctSubSpaceAux false s

/-- The NUMBER_START regex at recognize.py line 21: anchored at the start,
group one captures optional whitespace, an optional minus sign and one or more
ASCII digits.  Returns the captured group when the regex matches. -/
def numberStartMatch (s : Str) : Option Str :=
  let ws := s.takeWhile pyIsSpaceChar
  let rest := s.dropWhile pyIsSpaceChar
  let sign : Str := match rest with | '-' :: _ => ['-'] | _ => []
  let after := if sign.isEmpty then rest else rest.drop 1
  let digits := after.takeWhile Char.isDigit
  if digits.isEmpty then Option.none else Option.some (ws ++ sign ++ digits)

/-- Numeric value of a string of ASCII digits. -/
def digitsVal (ds : Str) : Nat := ds.foldl (fun acc c => acc * 10 + (c.toNat - 48)) 0

/-- Python int applied to the text captured by NUMBER_START: leading
whitespace is ignored, an optional minus sign negates the digit value. -/
def pyInt (s : Str) : Int :=
  let t := s.dropWhile pyIsSpaceChar
  match t with
  | '-' :: ds => -(digitsVal ds : Int)
  | ds => (digitsVal ds : Int)

/-- Python context.text.split with no argument, first element: drop leading
whitespace, then take characters up to the next whitespace.  Only applied
where the source guarantees a non-empty token exists. -/
def firstToken (s : Str) : Str :=
  (s.dropWhile pyIsSpaceChar).takeWhile (fun c => !pyIsSpaceChar c)

/-- Scalar dynamic values: the Python None singleton, integers and strings. -/
inductive Atom where
  | anone
  | aint (n : Int)
  | astr (s : Str)
deriving DecidableEq

/-- Dynamic values as used for entity values, intent-context entries and the
entries of requires-context and excludes-context: a scalar, or a non-string
collection of scalars.  Python equality on these values agrees with the
derived decidable equality: values of different shapes never compare equal,
collections compare elementwise. -/
inductive Value where
  | atom (a : Atom)
  | coll (vs : List Atom)
deriving DecidableEq

/-- The Python None value. -/
def vnone : Value := Value.atom Atom.anone

/-- Association-list lookup, front to back, mirroring a Python dict with
unique keys. -/
def alookup {α : Type} : List (Str × α) → Str → Option α
  | [], _ => Option.none
  | (k, v) :: rest, key => if k == key then Option.some v else alookup rest key

/-- Python dict.get with no default: an absent key yields None. -/
def dictGet (d : List (Str × Value)) (k : Str) : Value :=
  match alookup d k with
  | Option.some v => v
  | Option.none => vnone

/-- The isinstance test against collections.abc.Collection combined with the
guard excluding str: in this value model exactly the coll constructor. -/
def isCollection : Value → Bool
  | Value.coll _ => true
  | _ => false

/-- The Python membership test of the actual value in a collection value,
elementwise by equality.  Collections hold scalars, so a collection is never
a member of a collection. -/
def valueMem : Value → Value → Bool
  | Value.coll vs, Value.atom a => vs.any (fun x => x == a)
  | _, _ => false

/-- Python dict merge by double splat, second dict winning on key collisions:
keys of the first dict keep their order with values overridden by the second,
then keys only in the second follow. -/
def dictMerge (a b : List (Str × Value)) : List (Str × Value) :=
  a.map (fun kv => (kv.1, match alookup b kv.1 with
                          | Option.some v => v
                          | Option.none => kv.2)) ++
  b.filter (fun kv => (alookup a kv.1).isNone)

/-- SequenceType from expression.py.  Modelled from the spec: expression.py is
absent from src; the spec data model gives a Sequence a kind that is Group or
Alternative. -/
inductive SequenceType where
  | group
  | alternative
deriving DecidableEq

/-- Expression from expression.py.  Modelled from the spec: expression.py is
absent from src; the spec data model lists a literal TextChunk, a Sequence
with a kind and items, a ListReference carrying a list name and a slot name
defaulting to the list name, and a RuleReference.  A Sentence is its root
expression (the optional metadata plays no role in matching), so expansion
rules map names directly to expressions here. -/
inductive Expression where
  | textChunk (text : Str)
  | sequence (type : SequenceType) (items : List Expression)
  | listReference (list_name : Str) (slot_name : Str)
  | ruleReference (rule_name : Str)

/-- MatchEntity from recognize.py lines 38 to 49. -/
structure MatchEntity where
  name : Str
  value : Value
  text : Str
deriving DecidableEq

/-- TextSlotList values.  Modelled from the spec: intents.py is absent from
src; a text slot list value carries a matchable expression, an output value
and an optional context map (an absent or empty map is falsy in the source
guard on slot_value.context, so it is modelled as the empty list). -/
structure TextSlotValue where
  text_in : Expression
  value_out : Value
  context : List (Str × Value) := []

/-- SlotList from intents.py.  Modelled from the spec: intents.py is absent
from src; a slot list is either a TextSlotList holding ordered values or a
RangeSlotList holding start, stop and step integers. -/
inductive SlotList where
  | textList (values : List TextSlotValue)
  | rangeList (start stop step : Int)

/-- MatchSettings from recognize.py lines 52 to 63. -/
structure MatchSettings where
  slot_lists : List (Str × SlotList) := []
  expansion_rules : List (Str × Expression) := []
  ignore_whitespace : Bool := false

/-- MatchContext from recognize.py lines 66 to 86 (the is_match property is
not needed by the claims below and is omitted). -/
structure MatchContext where
  text : Str
  entities : List MatchEntity := []
  intent_context : List (Str × Value) := []
  is_start_of_word : Bool := true
deriving DecidableEq

/-- The exceptions match_expression can raise (recognize.py lines 26 to 35),
plus the fuel-exhaustion marker of this embedding.  The ValueError branches of
the source are unreachable here because the Expression and SlotList types are
exact. -/
inductive MatchError where
  | missingList (name : Str)
  | missingRule (name : Str)
  | noFuel
deriving DecidableEq

/-- The whitespace adjustment at the head of the TextChunk branch,
recognize.py lines 353 to 366: under ignore_whitespace all whitespace is
removed from the chunk text and the context text; otherwise, at the start of
a word, both are left-stripped. -/
def chunk_and_context_text (settings : MatchSettings) (context : MatchContext)
    (chunk_text : Str) : Str × Str :=
  if settings.ignore_whitespace then
    (removeWhitespace chunk_text, removeWhitespace context.text)
  else if context.is_start_of_word then
    (lstrip chunk_text, lstrip context.text)
  else (chunk_text, context.text)

/-- match_expression from recognize.py lines 346 to 537.  The generator is
modelled as the full list of yielded contexts, or the raised error.  The fuel
argument bounds the recursion depth; every recursive call of the source maps
to a call at one fuel less.  The is_empty property of TextChunk (expression.py
is absent from src) is, following the spec invariant on empty chunks, the test
that the chunk text is the empty string.  In the list-reference branch the
source first tests that the slot-lists dict is non-empty and then membership;
both failure cases collapse to a failing lookup.  The fresh MatchContext the
source builds before matching a text slot value copies all four fields, so the
incoming context is passed on directly.  The source breaks out of the group
fold when the working set of contexts becomes empty; evaluating the remaining
items against an empty working set yields nothing and raises nothing, so the
fold here simply continues with the empty set. -/
def match_expression (fuel : Nat) (settings : MatchSettings) (context : MatchContext)
    (expression : Expression) : Except MatchError (List MatchContext) :=
  match fuel with
  | 0 => Except.error MatchError.noFuel
  | Nat.succ fuel =>
    match expression with
    | Expression.textChunk t =>
      let p := chunk_and_context_text settings context t
      let chunk_text := p.1
      let context_text := p.2
      if t.isEmpty then
        Except.ok [context]
      else if startswithL chunk_text context_text then
        Except.ok [⟨context_text.drop chunk_text.length,
                    context.entities, context.intent_context, endswithSpace t⟩]
      else if isspaceL chunk_text then
        Except.ok [⟨context_text, context.entities, context.intent_context, true⟩]
      else
        let context_text2 := lstrip (punctSubSpace context.text)
        if startswithL chunk_text context_text2 then
          Except.ok [⟨context_text2.drop chunk_text.length,
                      context.entities, context.intent_context, context.is_start_of_word⟩]
        else Except.ok []
    | Expression.sequence SequenceType.alternative items =>
      items.foldlM (fun acc item => do
        let r ← match_expression fuel settings context item
        pure (acc ++ r)) []
    | Expression.sequence SequenceType.group items =>
      if items.isEmpty then Except.ok []
      else
        items.foldlM (fun ctxs item =>
          ctxs.foldlM (fun acc group_context => do
            let r ← match_expression fuel settings group_context item
            pure (acc ++ r)) []) [context]
    | Expression.listReference list_name slot_name =>
      match alookup settings.slot_lists list_name with
      | Option.none => Except.error (MatchError.missingList list_name)
      | Option.some slot_list =>
        match slot_list with
        | SlotList.textList values =>
          if context.text.isEmpty then Except.ok []
          else
            values.foldlM (fun acc slot_value => do
              let value_contexts ← match_expression fuel settings
                ⟨context.text, context.entities, context.intent_context,
                 context.is_start_of_word⟩ slot_value.text_in
              pure (acc ++ value_contexts.map (fun value_context =>
                let entities := context.entities ++
                  [⟨slot_name, slot_value.value_out,
                    if value_context.text.isEmpty then context.text
                    else context.text.take (context.text.length - value_context.text.length)⟩]
                if slot_value.context.isEmpty then
                  ⟨value_context.text, entities, value_context.intent_context,
                   context.is_start_of_word⟩
                else
                  ⟨value_context.text, entities,
                   dictMerge context.intent_context slot_value.context,
                   context.is_start_of_word⟩))) []
        | SlotList.rangeList start stop step =>
          if context.text.isEmpty then Except.ok []
          else
            match numberStartMatch context.text with
            | Option.none => Except.ok []
            | Option.some number_text =>
              let word_number := pyInt number_text
              let in_range :=
                if step == 1 then decide (start ≤ word_number ∧ word_number ≤ stop)
                else decide (0 < step ∧ start ≤ word_number ∧ word_number < stop + 1 ∧
                             (word_number - start) % step = 0)
              if in_range then
                Except.ok [⟨context.text.drop number_text.length,
                            context.entities ++
                              [⟨slot_name, Value.atom (Atom.aint word_number),
                                firstToken context.text⟩],
                            context.intent_context, context.is_start_of_word⟩]
              else Except.ok []
    | Expression.ruleReference rule_name =>
      match alookup settings.expansion_rules rule_name with
      | Option.none => Except.error (MatchError.missingRule rule_name)
      | Option.some body => match_expression fuel settings context body

/-- The TextSlotList handler of the list-reference branch, recognize.py lines
438 to 485, as a standalone function: match_expression delegates to this code
once the slot list has been looked up. -/
def match_text_slot_list (fuel : Nat) (settings : MatchSettings) (context : MatchContext)
    (slot_name : Str) (values : List TextSlotValue) : Except MatchError (List MatchContext) :=
  if context.text.isEmpty then Except.ok []
  else
    values.foldlM (fun acc slot_value => do
      let value_contexts ← match_expression fuel settings
        ⟨context.text, context.entities, context.intent_context,
         context.is_start_of_word⟩ slot_value.text_in
      pure (acc ++ value_contexts.map (fun value_context =>
        let entities := context.entities ++
          [⟨slot_name, slot_value.value_out,
            if value_context.text.isEmpty then context.text
            else context.text.take (context.text.length - value_context.text.length)⟩]
        if slot_value.context.isEmpty then
          ⟨value_context.text, entities, value_context.intent_context,
           context.is_start_of_word⟩
        else
          ⟨value_context.text, entities,
           dictMerge context.intent_context slot_value.context,
           context.is_start_of_word⟩))) []

/-- The RangeSlotList handler of the list-reference branch, recognize.py lines
487 to 520, as a standalone function. -/
def match_range_slot_list (context : MatchContext) (slot_name : Str)
    (start stop step : Int) : Except MatchError (List MatchContext) :=
  if context.text.isEmpty then Except.ok []
  else
    match numberStartMatch context.text with
    | Option.none => Except.ok []
    | Option.some number_text =>
      let word_number := pyInt number_text
      let in_range :=
        if step == 1 then decide (start ≤ word_number ∧ word_number ≤ stop)
        else decide (0 < step ∧ start ≤ word_number ∧ word_number < stop + 1 ∧
                     (word_number - start) % step = 0)
      if in_range then
        Except.ok [⟨context.text.drop number_text.length,
                    context.entities ++
                      [⟨slot_name, Value.atom (Atom.aint word_number),
                        firstToken context.text⟩],
                    context.intent_context, context.is_start_of_word⟩]
      else Except.ok []

/-- Dispatch on the kind of a looked-up slot list, recognize.py lines 438,
487 and 522: the two handler bodies above, selected by the slot-list kind. -/
def match_slot_list (fuel : Nat) (settings : MatchSettings) (context : MatchContext)
    (slot_name : Str) : SlotList → Except MatchError (List MatchContext)
  | SlotList.textList values => match_text_slot_list fuel settings context slot_name values
  | SlotList.rangeList start stop step => match_range_slot_list context slot_name start stop step

/-! ## The expression parser (src/hassil/parse_expression.py)

The tokenizer (parser.py) is absent from src, so the chunk type it produces is
modelled from the spec, and parse_expression is embedded on the chunk kinds
whose handling does not re-enter the tokenizer.  The GROUP and OPT kinds
delegate to parse_group_or_alt, which scans the chunk body with the absent
tokenizer; the structural steps those paths perform on an already-parsed body
(ensure_alternative, appending the empty branch) are embedded separately
below. -/

/-- ParseType from parser.py.  Modelled from the spec: the tokenizer yields
chunks of kind WORD, GROUP, OPT, LIST, RULE or ALT. -/
inductive ParseType where
  | WORD
  | GROUP
  | OPT
  | LIST
  | RULE
  | ALT
deriving DecidableEq

/-- ParseChunk from parser.py.  Modelled from the spec: a chunk carries its
kind, its text (delimiters included for delimited kinds) and the offset just
past the chunk. -/
structure ParseChunk where
  parse_type : ParseType
  text : Str
  end_index : Nat := 0

/-- Modelled from the spec: remove_escapes from the absent parser.py.  The
escape rule makes a backslash escape the next character; removing escapes
deletes each escaping backslash and keeps the escaped character. -/
def remove_escapes : Str → Str
  | [] => []
  | '\\' :: c :: rest => c :: remove_escapes rest
  | c :: rest => c :: remove_escapes rest

/-- Modelled from the spec: remove_delimiters from the absent parser.py.
Delimited chunks include their one-character delimiters in the text and the
parser strips them: drop the opening delimiter and the closing delimiter. -/
def remove_delimiters (text : Str) (_start_del _end_del : Char) : Str :=
  (text.drop 1).dropLast

/-- parse_expression from parse_expression.py lines 122 to 151, on the chunk
kinds that do not re-enter the absent tokenizer.  The WORD case (lines 125 to
126) returns a TextChunk holding the chunk text as is; the LIST case (lines
137 to 140) strips the braces, and the slot name of the resulting reference
defaults to the list name (the spec default, expression.py being absent); the
RULE case (lines 142 to 149) strips the angle brackets.  The GROUP and OPT
cases call parse_group_or_alt and are out of this embedding (none). -/
def parse_expression : ParseChunk → Option Expression
  | ⟨ParseType.WORD, text, _⟩ => Option.some (Expression.textChunk text)
  | ⟨ParseType.LIST, text, _⟩ =>
    let list_name := remove_delimiters text '\x7b' '\x7d'
    Option.some (Expression.listReference list_name list_name)
  | ⟨ParseType.RULE, text, _⟩ =>
    let rule_name := remove_delimiters text '<' '>'
    Option.some (Expression.ruleReference rule_name)
  | _ => Option.none

/-- ensure_alternative from parse_expression.py lines 50 to 60, on the kind
and items of a sequence: a sequence that is not an Alternative becomes one
whose single item is a Group holding the previous items. -/
def ensure_alternative : SequenceType × List Expression → SequenceType × List Expression
  | (ty, items) =>
    if ty = SequenceType.alternative then (ty, items)
    else (SequenceType.alternative, [Expression.sequence SequenceType.group items])

/-- The OPT case of parse_expression, lines 131 to 135, applied to the
sequence parse_group_or_alt returned for the bracket body: ensure the
Alternative form, then append an empty TextChunk as the final branch. -/
def parse_opt_from_body (body : SequenceType × List Expression) : Expression :=
  let seq := ensure_alternative body
  Expression.sequence seq.1 (seq.2 ++ [Expression.textChunk []])

/-- The ALT case inside parse_group_or_alt, lines 101 to 105, applied to the
sequence accumulated for the text before a trailing bar (so this is the parse
of a group whose body ends in a bar, with nothing after it): ensure the
Alternative form, then append an empty Group as the next branch, which the
exhausted scan leaves empty. -/
def parse_group_trailing_alt_from_body (body : SequenceType × List Expression) : Expression :=
  let seq := ensure_alternative body
  Expression.sequence seq.1 (seq.2 ++ [Expression.sequence SequenceType.group []])

/-! ## The context predicates of recognize_all (src/hassil/recognize.py)

recognize_all (lines 130 to 279) iterates intents and sentences, runs the
matcher, and filters each candidate match context.  The two filters over the
intent context are embedded here as functions from the declared predicate
dict and the intent context of the candidate to the skip_match flag; the
recursion returns true exactly when the source sets skip_match and breaks. -/

/-- The excludes-context loop of recognize_all, lines 201 to 221: for each
declared key and value, look up the actual value (None when absent), skip the
match on an exact equality, or when the declared value is a non-string
collection containing the actual value. -/
def excludes_context_skip : List (Str × Value) → List (Str × Value) → Bool
  | [], _ => false
  | (context_key, context_value) :: rest, intent_context =>
    let actual_value := dictGet intent_context context_key
    if actual_value = context_value then true
    else if isCollection context_value && valueMem context_value actual_value then true
    else excludes_context_skip rest intent_context

/-- The requires-context loop of recognize_all, lines 224 to 254: for each
declared key and value, the candidate passes the key on an exact non-None
equality, or when the declared value is None and the actual value is set to
anything non-None, or when the declared value is a non-string collection
containing the actual value; otherwise the match is skipped. -/
def requires_context_skip : List (Str × Value) → List (Str × Value) → Bool
  | [], _ => false
  | (context_key, context_value) :: rest, intent_context =>
    let actual_value := dictGet intent_context context_key
    if actual_value = context_value ∧ context_value ≠ vnone then
      requires_context_skip rest intent_context
    else if context_value = vnone ∧ actual_value ≠ vnone then
      requires_context_skip rest intent_context
    else if isCollection context_value && valueMem context_value actual_value then
      requires_context_skip rest intent_context
    else true

/-- The acceptance condition for one requires-context key in the words of the
specification: the declared value is null and the actual value is non-null,
or the actual value equals a non-null declared value, or the declared value
is a non-string collection containing the actual value. -/
def requires_context_accepts_spec (intent_context : List (Str × Value))
    (context_key : Str) (context_value : Value) : Prop :=
  (context_value = vnone ∧ dictGet intent_context context_key ≠ vnone) ∨
  (dictGet intent_context context_key = context_value ∧ context_value ≠ vnone) ∨
  (isCollection context_value = true ∧
   valueMem context_value (dictGet intent_context context_key) = true)

/-! ## Unfolding equations for match_expression -/

theorem match_expression_succ_textChunk (fuel : Nat) (settings : MatchSettings)
    (context : MatchContext) (t : Str) :
    match_expression (fuel + 1) settings context (Expression.textChunk t) =
      (let p := chunk_and_context_text settings context t
       let chunk_text := p.1
       let context_text := p.2
       if t.isEmpty then
         Except.ok [context]
       else if startswithL chunk_text context_text then
         Except.ok [⟨context_text.drop chunk_text.length,
                     context.entities, context.intent_context, endswithSpace t⟩]
       else if isspaceL chunk_text then
         Except.ok [⟨context_text, context.entities, context.intent_context, true⟩]
       else
         let context_text2 := lstrip (punctSubSpace context.text)
         if startswithL chunk_text context_text2 then
           Except.ok [⟨context_text2.drop chunk_text.length,
                       context.entities, context.intent_context, context.is_start_of_word⟩]
         else Except.ok []) := rfl

theorem match_expression_succ_alt (fuel : Nat) (settings : MatchSettings)
    (context : MatchContext) (items : List Expression) :
    match_expression (fuel + 1) settings context
        (Expression.sequence SequenceType.alternative items) =
      items.foldlM (fun acc item => do
        let r ← match_expression fuel settings context item
        pure (acc ++ r)) [] := rfl

theorem match_group_nil (fuel : Nat) (settings : MatchSettings) (context : MatchContext) :
    match_expression (fuel + 1) settings context
      (Expression.sequence SequenceType.group []) = Except.ok [] := rfl

theorem match_textChunk_nil (fuel : Nat) (settings : MatchSettings) (context : MatchContext) :
    match_expression (fuel + 1) settings context (Expression.textChunk []) =
      Except.ok [context] := rfl

theorem match_expression_succ_list (fuel : Nat) (settings : MatchSettings)
    (context : MatchContext) (list_name slot_name : Str) :
    match_expression (fuel + 1) settings context
        (Expression.listReference list_name slot_name) =
      (match alookup settings.slot_lists list_name with
       | Option.none => Except.error (MatchError.missingList list_name)
       | Option.some slot_list => match_slot_list fuel settings context slot_name slot_list) := by
  cases h : alookup settings.slot_lists list_name with
  | none =>
    simp only [match_expression, h]
  | some slot_list =>
    cases slot_list with
    | textList values =>
      simp only [match_expression, h, match_slot_list, match_text_slot_list]
    | rangeList start stop step =>
      simp only [match_expression, h, match_slot_list, match_range_slot_list]

theorem match_expression_succ_rule (fuel : Nat) (settings : MatchSettings)
    (context : MatchContext) (rule_name : Str) :
    match_expression (fuel + 1) settings context (Expression.ruleReference rule_name) =
      (match alookup settings.expansion_rules rule_name with
       | Option.none => Except.error (MatchError.missingRule rule_name)
       | Option.some body => match_expression fuel settings context body) := by
  cases h : alookup settings.expansion_rules rule_name with
  | none => simp only [match_expression, h]
  | some body => simp only [match_expression, h]

theorem ensure_alternative_fst (body : SequenceType × List Expression) :
    (ensure_alternative body).1 = SequenceType.alternative := by
  obtain ⟨ty, items⟩ := body
  simp only [ensure_alternative]
  split
  · rename_i h; exact h
  · rfl

theorem except_foldlM_append {α β ε : Type} (f : β → α → Except ε β)
    (l1 l2 : List α) (b : β) :
    (l1 ++ l2).foldlM f b = (l1.foldlM f b).bind (fun b1 => l2.foldlM f b1) := by
  induction l1 generalizing b with
  | nil => rfl
  | cons x xs ih =>
    simp only [List.cons_append, List.foldlM]
    cases f b x with
    | error e => rfl
    | ok b1 => simpa using ih b1

/-! ## Claims -/

/-- C1, corrected: for every fuel, match settings and match context, applying
match_expression to a Sequence of kind Group whose item list is empty yields
no context at all.  The guard on seq.items at recognize.py line 411 skips the
whole Group body when the item list is empty, so nothing is yielded; the
claimed behaviour of yielding the context unchanged does not hold. -/
theorem hassil_c1 (fuel : Nat) (settings : MatchSettings) (context : MatchContext) :
    match_expression (fuel + 1) settings context
      (Expression.sequence SequenceType.group []) = Except.ok [] :=
  match_group_nil fuel settings context

/-- C1, counterexample to the claim as stated: at the concrete empty group,
empty input text, default settings and a fresh context, match_expression
yields the empty list of contexts and not the singleton of the incoming
context. -/
theorem hassil_c1_counterexample :
    match_expression 1 ⟨[], [], false⟩ ⟨[], [], [], true⟩
        (Expression.sequence SequenceType.group []) = Except.ok [] ∧
    match_expression 1 ⟨[], [], false⟩ ⟨[], [], [], true⟩
        (Expression.sequence SequenceType.group []) ≠
      Except.ok [⟨[], [], [], true⟩] := by
  constructor
  · rfl
  · intro h
    rw [match_group_nil] at h
    injection h with h
    exact List.noConfusion h

/-- C2: parsing a WORD chunk whose text is a backslash followed by an opening
parenthesis keeps the backslash: parse_expression.py line 126 builds the
TextChunk from chunk.text as is and never calls remove_escapes (the import at
parse_expression.py line 17 is unused), while removing escapes would give the
single parenthesis character, a different string. -/
theorem hassil_c2 :
    parse_expression ⟨ParseType.WORD, ['\\', '('], 0⟩ =
      Option.some (Expression.textChunk ['\\', '(']) ∧
    remove_escapes ['\\', '('] = ['('] ∧
    (['\\', '('] : Str) ≠ ['('] :=
  ⟨rfl, rfl, by decide⟩

/-- C3, corrected: for every parsed bracket or group body, settings, context
and sufficient fuel, the contexts yielded by the parsed optional equal the
contexts yielded by the parsed trailing-bar alternative followed by the
incoming context itself: the final empty TextChunk branch of the optional
always yields the context unchanged (so the empty string always matches an
optional), while the final empty Group branch of the alternative yields nothing,
so the two sets differ exactly by that always-present context. -/
theorem hassil_c3 (fuel : Nat) (settings : MatchSettings) (context : MatchContext)
    (body : SequenceType × List Expression) :
    match_expression (fuel + 1 + 1) settings context (parse_opt_from_body body) =
      Except.map (fun r => r ++ [context])
        (match_expression (fuel + 1 + 1) settings context
          (parse_group_trailing_alt_from_body body)) := by
  simp only [parse_opt_from_body, parse_group_trailing_alt_from_body]
  rw [ensure_alternative_fst body]
  rw [match_expression_succ_alt, match_expression_succ_alt]
  rw [except_foldlM_append, except_foldlM_append]
  cases hF : (ensure_alternative body).2.foldlM
      (fun acc item => do
        let r ← match_expression (fuel + 1) settings context item
        pure (acc ++ r)) [] with
  | error e => simp [Except.bind, Except.map]
  | ok b =>
    simp [Except.bind, Except.map, List.foldlM, match_textChunk_nil, match_group_nil]

/-- C3, counterexample to the claim as stated: with the body holding the
single word x and the empty input text, the parsed optional yields the
incoming context while the parsed trailing-bar alternative yields nothing, so
the two sets of contexts are not equal. -/
theorem hassil_c3_counterexample :
    match_expression 3 ⟨[], [], false⟩ ⟨[], [], [], true⟩
        (parse_opt_from_body (SequenceType.group, [Expression.textChunk ['x']])) =
      Except.ok [⟨[], [], [], true⟩] ∧
    match_expression 3 ⟨[], [], false⟩ ⟨[], [], [], true⟩
        (parse_group_trailing_alt_from_body (SequenceType.group, [Expression.textChunk ['x']])) =
      Except.ok [] ∧
    (Except.ok [(⟨[], [], [], true⟩ : MatchContext)] : Except MatchError (List MatchContext)) ≠
      Except.ok [] := by
  refine ⟨rfl, rfl, ?_⟩
  intro h
  injection h with h
  exact List.noConfusion h

/-- C4: on a non-empty TextChunk whose whitespace-adjusted text is a prefix of
the whitespace-adjusted input text, match_expression yields exactly one
context: its text is the adjusted input with that prefix removed, its entities
and intent context are those of the incoming context, and its
is_start_of_word flag is whether the original, unstripped chunk text ends
with a space character (recognize.py lines 371 to 381). -/
theorem hassil_c4 (fuel : Nat) (settings : MatchSettings) (context : MatchContext) (t : Str)
    (hne : t ≠ [])
    (hpre : startswithL (chunk_and_context_text settings context t).1
                        (chunk_and_context_text settings context t).2 = true) :
    match_expression (fuel + 1) settings context (Expression.textChunk t) =
      Except.ok [⟨(chunk_and_context_text settings context t).2.drop
                    (chunk_and_context_text settings context t).1.length,
                  context.entities, context.intent_context, endswithSpace t⟩] := by
  have h0 : t.isEmpty = false := by
    cases t with
    | nil => exact absurd rfl hne
    | cons a as => rfl
  rw [match_expression_succ_textChunk]
  simp only [h0, hpre, Bool.false_eq_true, if_false, if_true]

/-- C4 witness: a concrete trailing-space chunk matched against a concrete
input under the default settings. -/
theorem hassil_c4_witness :
    (['h', 'i', ' '] : Str) ≠ [] ∧
    startswithL (chunk_and_context_text ⟨[], [], false⟩ ⟨['h', 'i', ' ', 'u'], [], [], true⟩
                   ['h', 'i', ' ']).1
                (chunk_and_context_text ⟨[], [], false⟩ ⟨['h', 'i', ' ', 'u'], [], [], true⟩
                   ['h', 'i', ' ']).2 = true ∧
    match_expression 1 ⟨[], [], false⟩ ⟨['h', 'i', ' ', 'u'], [], [], true⟩
        (Expression.textChunk ['h', 'i', ' ']) =
      Except.ok [⟨['u'], [], [], true⟩] :=
  ⟨by decide, rfl,
   hassil_c4 0 ⟨[], [], false⟩ ⟨['h', 'i', ' ', 'u'], [], [], true⟩ ['h', 'i', ' ']
     (by decide) rfl⟩

/-- The range test of the RangeSlotList branch (recognize.py lines 496 to
503) is, for a step of at least one, the set described in the spec: the value
lies between start and stop inclusive, and either the step is one or the
offset from start is divisible by the step.  The second branch of the source
tests membership in the Python range from start to stop plus one with the
given step, whose positive-step semantics the left side spells out. -/
theorem range_condition_iff (start stop step n : Int) (hstep : 1 ≤ step) :
    ((if step == 1 then decide (start ≤ n ∧ n ≤ stop)
      else decide (0 < step ∧ start ≤ n ∧ n < stop + 1 ∧ (n - start) % step = 0)) = true) ↔
    (start ≤ n ∧ n ≤ stop ∧ (step = 1 ∨ (n - start) % step = 0)) := by
  by_cases h : step = 1
  · subst h
    simp only [beq_self_eq_true, if_true, decide_eq_true_eq]
    omega
  · have hb : (step == 1) = false := by simp [h]
    rw [hb]
    simp only [Bool.false_eq_true, if_false, decide_eq_true_eq]
    constructor
    · rintro ⟨_, h1, h2, h3⟩; exact ⟨h1, by omega, Or.inr h3⟩
    · rintro ⟨h1, h2, h3⟩
      refine ⟨by omega, h1, by omega, ?_⟩
      rcases h3 with h3 | h3
      · exact absurd h3 h
      · exact h3

/-- C5: for a ListReference resolving to a RangeSlotList with a step of at
least one, on an input whose start the NUMBER_START regex matches with
captured text denoting the integer n, the matcher yields exactly one capture
with value n when n lies in the described set, and nothing otherwise
(recognize.py lines 487 to 520).  The yielded context consumes the captured
span, appends an entity holding n and the first whitespace-delimited token of
the input, and carries the intent context over. -/
theorem hassil_c5 (fuel : Nat) (settings : MatchSettings) (context : MatchContext)
    (list_name slot_name : Str) (start stop step : Int) (number_text : Str) (n : Int)
    (hlist : alookup settings.slot_lists list_name =
      Option.some (SlotList.rangeList start stop step))
    (hstep : 1 ≤ step)
    (hne : context.text ≠ [])
    (hnum : numberStartMatch context.text = Option.some number_text)
    (hn : pyInt number_text = n) :
    match_expression (fuel + 1) settings context
        (Expression.listReference list_name slot_name) =
      (if start ≤ n ∧ n ≤ stop ∧ (step = 1 ∨ (n - start) % step = 0) then
        Except.ok [⟨context.text.drop number_text.length,
                    context.entities ++
                      [⟨slot_name, Value.atom (Atom.aint n), firstToken context.text⟩],
                    context.intent_context, context.is_start_of_word⟩]
      else Except.ok []) := by
  have hE : context.text.isEmpty = false := by
    cases hT : context.text with
    | nil => exact absurd hT hne
    | cons a as => rfl
  rw [match_expression_succ_list, hlist]
  simp only [match_slot_list, match_range_slot_list, hE, Bool.false_eq_true, if_false, hnum, hn]
  have hkey := range_condition_iff start stop step n hstep
  by_cases hc : start ≤ n ∧ n ≤ stop ∧ (step = 1 ∨ (n - start) % step = 0)
  · rw [if_pos (hkey.mpr hc), if_pos hc]
  · rw [if_neg (fun hh => hc (hkey.mp hh)), if_neg hc]

/-- C5 witness: the range from zero to ten with step two, applied to the
input consisting of the single digit four, which lies in the set. -/
theorem hassil_c5_witness :
    alookup (MatchSettings.slot_lists ⟨[(['L'], SlotList.rangeList 0 10 2)], [], false⟩) ['L'] =
      Option.some (SlotList.rangeList 0 10 2) ∧
    (1 : Int) ≤ 2 ∧
    (['4'] : Str) ≠ [] ∧
    numberStartMatch ['4'] = Option.some ['4'] ∧
    pyInt ['4'] = 4 ∧
    match_expression 1 ⟨[(['L'], SlotList.rangeList 0 10 2)], [], false⟩ ⟨['4'], [], [], true⟩
        (Expression.listReference ['L'] ['n']) =
      Except.ok [⟨[], [⟨['n'], Value.atom (Atom.aint 4), ['4']⟩], [], true⟩] :=
  ⟨rfl, by decide, by decide, rfl, rfl, by
    have h := hassil_c5 0 ⟨[(['L'], SlotList.rangeList 0 10 2)], [], false⟩
      ⟨['4'], [], [], true⟩ ['L'] ['n'] 0 10 2 ['4'] 4 rfl (by decide) (by decide) rfl rfl
    rw [h]
    rw [if_pos (by decide)]
    rfl⟩

/-- C6: a ListReference whose list name fails to resolve raises
MissingListError, and a RuleReference whose rule name fails to resolve raises
MissingRuleError, in both cases before any context is yielded; when the name
resolves, the reference raises no such error at that point: the list
reference runs the handler of the resolved slot list and the rule reference
delegates to the resolved expression (recognize.py lines 431 to 437 and 525
to 535). -/
theorem hassil_c6 :
    (∀ (fuel : Nat) (settings : MatchSettings) (context : MatchContext) (ln sn : Str),
        alookup settings.slot_lists ln = Option.none →
        match_expression (fuel + 1) settings context (Expression.listReference ln sn) =
          Except.error (MatchError.missingList ln)) ∧
    (∀ (fuel : Nat) (settings : MatchSettings) (context : MatchContext) (rn : Str),
        alookup settings.expansion_rules rn = Option.none →
        match_expression (fuel + 1) settings context (Expression.ruleReference rn) =
          Except.error (MatchError.missingRule rn)) ∧
    (∀ (fuel : Nat) (settings : MatchSettings) (context : MatchContext) (rn : Str)
        (body : Expression),
        alookup settings.expansion_rules rn = Option.some body →
        match_expression (fuel + 1) settings context (Expression.ruleReference rn) =
          match_expression fuel settings context body) ∧
    (∀ (fuel : Nat) (settings : MatchSettings) (context : MatchContext) (ln sn : Str)
        (slot_list : SlotList),
        alookup settings.slot_lists ln = Option.some slot_list →
        match_expression (fuel + 1) settings context (Expression.listReference ln sn) =
          match_slot_list fuel settings context sn slot_list) := by
  refine ⟨?_, ?_, ?_, ?_⟩
  · intro fuel settings context ln sn h
    rw [match_expression_succ_list, h]
  · intro fuel settings context rn h
    rw [match_expression_succ_rule, h]
  · intro fuel settings context rn body h
    rw [match_expression_succ_rule, h]
  · intro fuel settings context ln sn slot_list h
    rw [match_expression_succ_list, h]

/-- C6 witness: concrete failing and resolving lookups for both kinds of
reference. -/
theorem hassil_c6_witness :
    match_expression 1 ⟨[], [], false⟩ ⟨['a'], [], [], true⟩
        (Expression.listReference ['x'] ['x']) =
      Except.error (MatchError.missingList ['x']) ∧
    match_expression 1 ⟨[], [], false⟩ ⟨['a'], [], [], true⟩
        (Expression.ruleReference ['r']) =
      Except.error (MatchError.missingRule ['r']) ∧
    match_expression 2 ⟨[], [(['r'], Expression.textChunk ['a'])], false⟩ ⟨['a'], [], [], true⟩
        (Expression.ruleReference ['r']) =
      match_expression 1 ⟨[], [(['r'], Expression.textChunk ['a'])], false⟩ ⟨['a'], [], [], true⟩
        (Expression.textChunk ['a']) ∧
    match_expression 2 ⟨[(['L'], SlotList.textList [])], [], false⟩ ⟨['a'], [], [], true⟩
        (Expression.listReference ['L'] ['L']) =
      match_slot_list 1 ⟨[(['L'], SlotList.textList [])], [], false⟩ ⟨['a'], [], [], true⟩
        ['L'] (SlotList.textList []) :=
  ⟨hassil_c6.1 0 ⟨[], [], false⟩ ⟨['a'], [], [], true⟩ ['x'] ['x'] rfl,
   hassil_c6.2.1 0 ⟨[], [], false⟩ ⟨['a'], [], [], true⟩ ['r'] rfl,
   hassil_c6.2.2.1 1 ⟨[], [(['r'], Expression.textChunk ['a'])], false⟩ ⟨['a'], [], [], true⟩
     ['r'] (Expression.textChunk ['a']) rfl,
   hassil_c6.2.2.2 1 ⟨[(['L'], SlotList.textList [])], [], false⟩ ⟨['a'], [], [], true⟩
     ['L'] ['L'] (SlotList.textList []) rfl⟩

/-- C8: a TextChunk yields at most one context, whatever the settings, the
context and the chunk text: every branch of the TextChunk case of
match_expression (recognize.py lines 350 to 401) yields either a single
context or nothing. -/
theorem hassil_c8 (fuel : Nat) (settings : MatchSettings) (context : MatchContext)
    (t : Str) (r : List MatchContext)
    (h : match_expression fuel settings context (Expression.textChunk t) = Except.ok r) :
    r.length ≤ 1 := by
  cases fuel with
  | zero => exact Except.noConfusion h
  | succ fuel =>
    have h' : match_expression (fuel + 1) settings context (Expression.textChunk t) =
        Except.ok r := h
    rw [match_expression_succ_textChunk] at h'
    simp only [] at h'
    split at h'
    · cases h'; exact Nat.le_refl 1
    · split at h'
      · cases h'; exact Nat.le_refl 1
      · split at h'
        · cases h'; exact Nat.le_refl 1
        · split at h'
          · cases h'; exact Nat.le_refl 1
          · cases h'; exact Nat.zero_le 1

/-- C8 witness: a concrete one-character chunk matched against itself. -/
theorem hassil_c8_witness :
    ([(⟨[], [], [], false⟩ : MatchContext)]).length ≤ 1 :=
  hassil_c8 1 ⟨[], [], false⟩ ⟨['h'], [], [], true⟩ ['h'] [⟨[], [], [], false⟩] rfl

/-- C9: with the remaining input text empty, a ListReference resolving to a
TextSlotList or to a RangeSlotList yields no contexts at all: both handlers
test the input text for truthiness first (recognize.py lines 439 and 488) and
an empty string skips the whole branch, even when a list value could match
the empty string. -/
theorem hassil_c9 :
    (∀ (fuel : Nat) (settings : MatchSettings) (context : MatchContext) (ln sn : Str)
        (values : List TextSlotValue),
        alookup settings.slot_lists ln = Option.some (SlotList.textList values) →
        context.text = [] →
        match_expression (fuel + 1) settings context (Expression.listReference ln sn) =
          Except.ok []) ∧
    (∀ (fuel : Nat) (settings : MatchSettings) (context : MatchContext) (ln sn : Str)
        (start stop step : Int),
        alookup settings.slot_lists ln = Option.some (SlotList.rangeList start stop step) →
        context.text = [] →
        match_expression (fuel + 1) settings context (Expression.listReference ln sn) =
          Except.ok []) := by
  constructor
  · intro fuel settings context ln sn values h ht
    rw [match_expression_succ_list, h]
    simp only [match_slot_list, match_text_slot_list, ht, List.isEmpty_nil, if_true]
  · intro fuel settings context ln sn start stop step h ht
    rw [match_expression_succ_list, h]
    simp only [match_slot_list, match_range_slot_list, ht, List.isEmpty_nil, if_true]

/-- C9 witness: a text slot list whose single value is the empty chunk, which
would match the empty string, and a unit range, both against empty input. -/
theorem hassil_c9_witness :
    match_expression 1 ⟨[(['L'], SlotList.textList [⟨Expression.textChunk [], vnone, []⟩])],
        [], false⟩ ⟨[], [], [], true⟩ (Expression.listReference ['L'] ['L']) =
      Except.ok [] ∧
    match_expression 1 ⟨[(['R'], SlotList.rangeList 0 5 1)], [], false⟩ ⟨[], [], [], true⟩
        (Expression.listReference ['R'] ['R']) =
      Except.ok [] :=
  ⟨hassil_c9.1 0 ⟨[(['L'], SlotList.textList [⟨Expression.textChunk [], vnone, []⟩])], [], false⟩
     ⟨[], [], [], true⟩ ['L'] ['L'] [⟨Expression.textChunk [], vnone, []⟩] rfl rfl,
   hassil_c9.2 0 ⟨[(['R'], SlotList.rangeList 0 5 1)], [], false⟩ ⟨[], [], [], true⟩
     ['R'] ['R'] 0 5 1 rfl rfl⟩

/-- C7: the requires-context filter of recognize_all accepts a candidate for
one declared key exactly under the disjunction the spec states; skipping over
the whole declared dict triggers exactly when some key rejects; and a
candidate whose intent context lacks the key entirely is rejected when the
declared value is null, because the looked-up actual value is then null
(recognize.py lines 224 to 254). -/
theorem hassil_c7 :
    (∀ (intent_context : List (Str × Value)) (k : Str) (v : Value),
        requires_context_skip [(k, v)] intent_context = false ↔
          requires_context_accepts_spec intent_context k v) ∧
    (∀ (req : List (Str × Value)) (intent_context : List (Str × Value)),
        requires_context_skip req intent_context =
          req.any (fun kv => requires_context_skip [kv] intent_context)) ∧
    (∀ (intent_context : List (Str × Value)) (k : Str),
        alookup intent_context k = Option.none →
          requires_context_skip [(k, vnone)] intent_context = true) := by
  have hsingle : ∀ (intent_context : List (Str × Value)) (k : Str) (v : Value),
      requires_context_skip [(k, v)] intent_context = false ↔
        requires_context_accepts_spec intent_context k v := by
    intro ctx k v
    simp only [requires_context_skip, requires_context_accepts_spec]
    split_ifs with h1 h2 h3
    · simp only [true_iff]
      exact Or.inr (Or.inl h1)
    · simp only [true_iff]
      exact Or.inl h2
    · simp only [true_iff]
      rw [Bool.and_eq_true] at h3
      exact Or.inr (Or.inr h3)
    · simp only [Bool.true_eq_false, false_iff]
      rintro (hc | hc | hc)
      · exact h2 hc
      · exact h1 hc
      · exact h3 (Bool.and_eq_true _ _ |>.mpr hc)
  refine ⟨hsingle, ?_, ?_⟩
  · intro req ctx
    induction req with
    | nil => rfl
    | cons kv rest ih =>
      obtain ⟨k, v⟩ := kv
      simp only [List.any_cons, ← ih]
      simp only [requires_context_skip]
      by_cases h1 : dictGet ctx k = v ∧ v ≠ vnone
      · rw [if_pos h1, if_pos h1]
        simp
      · rw [if_neg h1, if_neg h1]
        by_cases h2 : v = vnone ∧ dictGet ctx k ≠ vnone
        · rw [if_pos h2, if_pos h2]
          simp
        · rw [if_neg h2, if_neg h2]
          by_cases h3 : (isCollection v && valueMem v (dictGet ctx k)) = true
          · rw [if_pos h3, if_pos h3]
            simp
          · rw [if_neg h3, if_neg h3]
            simp
  · intro ctx k h
    have hget : dictGet ctx k = vnone := by
      simp only [dictGet, h]
    simp only [requires_context_skip, hget]
    rw [if_neg (by decide), if_neg (by decide), if_neg (by decide)]

/-- C7 witness: the empty intent context lacks the key, and the null
requirement rejects it. -/
theorem hassil_c7_witness :
    requires_context_skip [(['a'], vnone)] [] = true :=
  hassil_c7.2.2 [] ['a'] rfl

/-- C10: when excludes_context maps a key to null, every candidate whose
looked-up actual value is null (because the key is absent, or because it is
set to null) is rejected: the equality test at recognize.py line 209 compares
the None default of dict.get against the excluded None and skips the match. -/
theorem hassil_c10 (excl : List (Str × Value)) (intent_context : List (Str × Value))
    (k : Str) (hmem : (k, vnone) ∈ excl)
    (hval : dictGet intent_context k = vnone) :
    excludes_context_skip excl intent_context = true := by
  induction excl with
  | nil => cases hmem
  | cons kv rest ih =>
    obtain ⟨k1, v1⟩ := kv
    simp only [excludes_context_skip]
    split_ifs with h1 h2
    · rfl
    · rfl
    · rcases List.mem_cons.mp hmem with heq | htail
      · exfalso
        have hk : k1 = k := congrArg Prod.fst heq.symm
        have hv : v1 = vnone := congrArg Prod.snd heq.symm
        subst hk
        subst hv
        exact h1 hval
      · exact ih htail

/-- C10 witness: a single excluded null key against the empty intent
context, whose lookup for the key yields null. -/
theorem hassil_c10_witness :
    excludes_context_skip [(['a'], vnone)] [] = true :=
  hassil_c10 [(['a'], vnone)] [] ['a'] (List.mem_singleton.mpr rfl) rfl

end Hassil
